import Mathlib

/-!
# go-questionnaire: the form builder and the request handler

A shallow embedding of `questionnaire.go`.

* Go strings are Lean strings; a `map[string]interface{}` decoded by
  `encoding/json` is an association list read with `List.lookup`.
* A Go panic (a failed type assertion `x.(T)`, an index out of range, `check(err)`
  on a non-nil error, `template.Must` on a failed parse) is the `Except.error` branch.
* The files under `/opt/questionnaire`, the answers directory and the wall clock are an
  explicit `World` that the handler reads and updates.
* The validation of the form and its cleaned data belong to the library `gforms`, whose sources
  are not part of the repository: the handler takes them as a parameter, and `specForms` is an
  instance written after section 4.5 of the specification.
* `fmt.Sprintf` is modelled on a fragment of its formats, and `int(v)` within the range of
  `int`; what Go gives outside them is a parameter, the `Runtime`.
-/

namespace Questionnaire

/-! ## Values decoded by `encoding/json` -/

/-- The ways the program can panic. -/
inductive Panic where
  /-- A type assertion `x.(T)` on a value that is not a `T`. -/
  | typeAssertion
  /-- An index expression `a[i]` with `i` out of range. -/
  | indexOutOfRange
  /-- The function `check` (or `template.Must`) on a non-nil error. -/
  | error (what : String)
  deriving DecidableEq, Repr

/-- What `json.Unmarshal` stores in an `interface{}`: `nil`, `bool`, `float64`, `string`,
`[]interface{}` or `map[string]interface{}`. A `float64` decoded from JSON is finite, and is
represented by the rational number it denotes. -/
inductive Value where
  | null
  | bool (b : Bool)
  | number (v : ℚ)
  | string (s : String)
  | array (xs : List Value)
  | object (kvs : List (String × Value))

/-- The map index expression `m[k]`: the value stored under `k`, and the nil interface when the
key is absent. -/
def index (m : List (String × Value)) (k : String) : Value :=
  match m.lookup k with
  | some v => v
  | none => Value.null

/-- The type assertion `x.(bool)`. -/
def assertBool : Value → Except Panic Bool
  | Value.bool b => Except.ok b
  | _ => Except.error Panic.typeAssertion

/-- The type assertion `x.(string)`. -/
def assertString : Value → Except Panic String
  | Value.string s => Except.ok s
  | _ => Except.error Panic.typeAssertion

/-- The type assertion `x.(map[string]interface{})`. -/
def assertMap : Value → Except Panic (List (String × Value))
  | Value.object kvs => Except.ok kvs
  | _ => Except.error Panic.typeAssertion

/-- The type assertion `x.([]interface{})`. -/
def assertSlice : Value → Except Panic (List Value)
  | Value.array xs => Except.ok xs
  | _ => Except.error Panic.typeAssertion

/-- The two-result type assertion `v, ok := x.(float64)`: `none` stands for `ok == false`. -/
def assertFloat64? : Value → Option ℚ
  | Value.number v => some v
  | _ => none

/-! ## What is left to the Go implementation -/

/-- An operand of `fmt.Sprintf`: an `int` (or a type whose underlying type is `int`, printed
with an integer verb) or a `string`. -/
inductive FmtArg where
  | int (n : Int)
  | str (s : String)
  deriving DecidableEq, Repr

/-- What the model does not fix and takes from the Go implementation at hand: the result of
`int(v)` for a `float64` outside the range of the 64-bit `int` (the language leaves it to the
implementation), and the result of `fmt.Sprintf` on the formats and operands outside the
fragment of `fmt` that is modelled below. -/
structure Runtime where
  intOverflow : ℚ → Int
  sprintfOther : String → List FmtArg → String

/-- The conversion `int(v)` of a `float64`: the fraction is discarded (truncation towards
zero) when the result fits the 64-bit `int`; otherwise the result is the implementation's. -/
def floatToInt (go : Runtime) (v : ℚ) : Int :=
  let t : Int := if 0 ≤ v then ⌊v⌋ else ⌈v⌉
  if -9223372036854775808 ≤ t ∧ t ≤ 9223372036854775807 then t else go.intOverflow v

/-! ## `fmt.Sprintf` -/

/-- The flags and the width of one formatting directive. -/
structure FmtFlags where
  minus : Bool := false
  plus : Bool := false
  space : Bool := false
  zero : Bool := false
  wid : Option Nat := none
  deriving DecidableEq, Repr

/-- Padding with blanks of `fmt.pad`, to the width of the directive: on the left, or on the
right with the `-` flag. -/
def fmtPad (f : FmtFlags) (b : List Char) : List Char :=
  match f.wid with
  | none => b
  | some w =>
    if f.minus then b ++ List.replicate (w - b.length) ' '
    else List.replicate (w - b.length) ' ' ++ b

/-- The decimal integer formatting of `fmt.fmtInteger`: with the `0` flag and a width the digits
are padded with zeros to the width less the room of the sign; the sign is `-`, or `+` or a blank
with those flags; the result is then padded with blanks. -/
def fmtInteger (f : FmtFlags) (n : Int) : List Char :=
  let negative := decide (n < 0)
  let digits := Nat.toDigits 10 n.natAbs
  let prec : Nat :=
    match f.wid with
    | some w => if f.zero then (if negative || f.plus || f.space then w - 1 else w) else 0
    | none => 0
  let digits := List.replicate (prec - digits.length) '0' ++ digits
  let sign : List Char :=
    if negative then ['-'] else if f.plus then ['+'] else if f.space then [' '] else []
  fmtPad f (sign ++ digits)

/-- The string formatting of `fmt.fmtS` with a width or the `-` flag at most: the string padded
with blanks. A string directive with another flag is outside the modelled fragment. -/
def fmtS (f : FmtFlags) (s : String) : Option (List Char) :=
  if f.plus || f.space || f.zero then none else some (fmtPad f s.data)

/-- The operand printed with the verb `v` and no flag. -/
def printV : FmtArg → List Char
  | FmtArg.int n => fmtInteger {} n
  | FmtArg.str s => s.data

/-- The name of the operand's type, as `reflect.TypeOf(arg).String()` gives it. -/
def FmtArg.typeName : FmtArg → String
  | FmtArg.int _ => "int"
  | FmtArg.str _ => "string"

/-- The report of `fmt` for a verb that the operand's type does not support,
`%!verb(type=value)`, modelled for a directive without flags and width. -/
def badVerb (f : FmtFlags) (arg : FmtArg) (verb : Char) : Option (List Char) :=
  if f = {} then
    some ("%!".data ++ [verb] ++ "(".data ++ arg.typeName.data ++ "=".data ++ printV arg ++
      ")".data)
  else none

/-- The function `printArg` of `fmt` on the modelled fragment: `d` and `v` format an integer
(`v` without the `+` flag), `s` and `v` a string. The other verbs that `fmt` gives a meaning
(`b`, `c`, `o`, `O`, `q`, `x`, `X`, `U` on integers, `q`, `x`, `X` on strings, `T`, `p` and `w` on
both) are outside the fragment: the result is `none`. Any further verb is reported as a bad
verb. -/
def printArg (f : FmtFlags) (arg : FmtArg) (verb : Char) : Option (List Char) :=
  match arg with
  | FmtArg.int n =>
    if verb = 'd' then some (fmtInteger f n)
    else if verb = 'v' then (if f.plus then none else some (fmtInteger f n))
    else if verb ∈ ['b', 'c', 'o', 'O', 'q', 'x', 'X', 'U', 'T', 'p', 'w'] then none
    else badVerb f arg verb
  | FmtArg.str s =>
    if verb = 's' ∨ verb = 'v' then fmtS f s
    else if verb ∈ ['q', 'x', 'X', 'T', 'p', 'w'] then none
    else badVerb f arg verb

/-- The operands left over when the format is used up: `%!(EXTRA type=value, ...)`. -/
def extraArgs : List FmtArg → List Char
  | [] => []
  | args =>
    "%!(EXTRA ".data ++
      ", ".data.intercalate (args.map fun a => a.typeName.data ++ "=".data ++ printV a) ++
      ")".data

/-- One verb of the format: `%` (without flags and width) prints a percent sign and takes no
operand, a verb without an operand prints `%!verb(MISSING)`, any other verb prints the next
operand. The result is the text and the operands that remain, and `none` outside the modelled
fragment. -/
def doVerb (f : FmtFlags) (verb : Char) (args : List FmtArg) :
    Option (List Char × List FmtArg) :=
  if verb = '%' then (if f = {} then some (['%'], args) else none)
  else
    match args with
    | [] => some ("%!".data ++ [verb] ++ "(MISSING)".data, [])
    | a :: rest =>
      match printArg f a verb with
      | some out => some (out, rest)
      | none => none

/-- Where the scan of the format stands: in plain text, among the flags of a directive, or in
the digits of its width. -/
inductive FmtState where
  | text
  | flags (f : FmtFlags)
  | width (f : FmtFlags) (n : Nat)

/-- The loop of `fmt.doPrintf` over the format, on the modelled fragment: directives
`%[flags][width]verb` with the flags `0`, `+`, `-` and blank. Plain text is copied; a format that
ends inside a directive gives `%!(NOVERB)`; the operands left over are reported at the end. The
flag `#`, precisions, `*`, argument indexes `[n]` and a width whose digits go on after the
number has passed 1000000 (where `parsenum` gives up) are outside the fragment: the result is
`none`. -/
def doPrintf : FmtState → List Char → List FmtArg → Option (List Char)
  | FmtState.text, [], args => some (extraArgs args)
  | FmtState.text, c :: cs, args =>
    if c = '%' then doPrintf (FmtState.flags {}) cs args
    else
      match doPrintf FmtState.text cs args with
      | some out => some (c :: out)
      | none => none
  | FmtState.flags _, [], args => some ("%!(NOVERB)".data ++ extraArgs args)
  | FmtState.flags f, c :: cs, args =>
    if c = '0' then doPrintf (FmtState.flags { f with zero := !f.minus }) cs args
    else if c = '+' then doPrintf (FmtState.flags { f with plus := true }) cs args
    else if c = '-' then doPrintf (FmtState.flags { f with minus := true, zero := false }) cs args
    else if c = ' ' then doPrintf (FmtState.flags { f with space := true }) cs args
    else if c = '#' ∨ c = '*' ∨ c = '.' ∨ c = '[' then none
    else if c.isDigit then doPrintf (FmtState.width f (c.toNat - '0'.toNat)) cs args
    else
      match doVerb f c args with
      | some r =>
        match doPrintf FmtState.text cs r.2 with
        | some out => some (r.1 ++ out)
        | none => none
      | none => none
  | FmtState.width _ _, [], args => some ("%!(NOVERB)".data ++ extraArgs args)
  | FmtState.width f n, c :: cs, args =>
    if c.isDigit then
      if n > 1000000 then none
      else doPrintf (FmtState.width f (n * 10 + (c.toNat - '0'.toNat))) cs args
    else if c = '.' ∨ c = '[' then none
    else
      match doVerb { f with wid := some n } c args with
      | some r =>
        match doPrintf FmtState.text cs r.2 with
        | some out => some (r.1 ++ out)
        | none => none
      | none => none

/-- The modelled fragment of `fmt.Sprintf`: the result for the formats and operands it covers,
and `none` for the others. -/
def sprintfFragment (format : String) (args : List FmtArg) : Option String :=
  match doPrintf FmtState.text format.data args with
  | some out => some (String.mk out)
  | none => none

/-- The library function `fmt.Sprintf(format, args...)`: the modelled fragment where it applies,
and what the implementation gives elsewhere. -/
def Sprintf (go : Runtime) (format : String) (args : List FmtArg) : String :=
  match sprintfFragment format args with
  | some out => out
  | none => go.sprintfOther format args

/-! ## Locales -/

/-- The array `validLocales` of `getLocale`. -/
def validLocales : List String := ["en", "ar"]

/-- The function `getLocale`: the first valid locale equal to the input, and `"en"` when the
loop finds none. -/
def getLocale (locale : String) : String :=
  match validLocales.find? (fun l => l == locale) with
  | some l => l
  | none => "en"

/-! ## `strings.SplitAfterN` -/

/-- The function `strings.Index(s, sep)`: the position of the first occurrence of `sep` in `s`,
and `none` for Go's `-1`. -/
def Index : List Char → List Char → Option Nat
  | [], sep => if sep = [] then some 0 else none
  | c :: cs, sep =>
    if sep.isPrefixOf (c :: cs) then some 0
    else
      match Index cs sep with
      | some m => some (m + 1)
      | none => none

/-- The function `strings.Count(s, sep)` for a non-empty `sep`: the number of non-overlapping
occurrences; the first argument bounds the number of steps. -/
def Count : Nat → List Char → List Char → Nat
  | 0, _, _ => 0
  | fuel + 1, s, sep =>
    match Index s sep with
    | none => 0
    | some m => Count fuel (s.drop (m + sep.length)) sep + 1

/-- The function `explode` of package `strings`: the string cut into its characters, at most `n`
pieces, the last of which is the rest of the string. -/
def explode : List Char → Nat → List (List Char)
  | _, 0 => []
  | s, 1 => [s]
  | [], _ + 2 => []
  | c :: cs, n + 2 => [c] :: explode cs (n + 1)

/-- The loop of `genSplit` with `sepSave = len(sep)`: while pieces may still be cut and `sep`
occurs in `s`, the piece up to and including `sep` is stored and `s` continues after it; the
last piece is what remains of `s`. -/
def splitAfterLoop (sep : List Char) : Nat → List Char → List (List Char)
  | 0, s => [s]
  | k + 1, s =>
    match Index s sep with
    | none => [s]
    | some m => s.take (m + sep.length) :: splitAfterLoop sep k (s.drop (m + sep.length))

/-- The library function `strings.SplitAfterN(s, sep, n)`, which is `genSplit(s, sep, len(sep), n)`. -/
def SplitAfterN (s sep : String) (n : Int) : List String :=
  if n = 0 then []
  else if sep = "" then
    (explode s.data (if n < 0 ∨ (s.length : Int) < n then s.length else n.toNat)).map String.mk
  else
    let n : Nat := if n < 0 then Count (s.length + 1) s.data sep.data + 1 else n.toNat
    let n : Nat := if n > s.utf8ByteSize + 1 then s.utf8ByteSize + 1 else n
    (splitAfterLoop sep.data (n - 1) s.data).map String.mk

/-- The index expression `a[i]` on a slice: a panic when `i` is out of range. -/
def sliceIndex {α : Type} (a : List α) (i : Nat) : Except Panic α :=
  match a.get? i with
  | some x => Except.ok x
  | none => Except.error Panic.indexOutOfRange

/-! ## Files -/

/-- What the program observes of a file: the value `json.Unmarshal` decodes from its bytes
(`none` when they are not JSON) and whether `template.ParseFiles` accepts them. -/
structure File where
  json : Option Value
  template : Bool

/-- The files the program reads, by path. -/
abbrev Files := List (String × File)

/-- The sequence `ioutil.ReadFile(path)`, `check(err)`, `json.Unmarshal(dat, &m)`, `check(err)`
for a `map[string]interface{}` variable `m`: a JSON object fills the map, JSON `null` leaves
it nil (every lookup then gives nil), any other content is an error. -/
def readMap (files : Files) (path : String) : Except Panic (List (String × Value)) :=
  match files.lookup path with
  | none => Except.error (Panic.error "ReadFile")
  | some file =>
    match file.json with
    | some (Value.object kvs) => Except.ok kvs
    | some Value.null => Except.ok []
    | _ => Except.error (Panic.error "Unmarshal")

/-- The expression `template.Must(template.New(name).ParseFiles(path))`. -/
def mustParseFiles (files : Files) (path : String) : Except Panic Unit :=
  match files.lookup path with
  | none => Except.error (Panic.error "ParseFiles")
  | some file => if file.template then Except.ok () else Except.error (Panic.error "ParseFiles")

/-! ## Validators and fields of `gforms` -/

/-- The validators the program constructs: `gforms.Required(message)` and
`gforms.MaxLengthValidator(length, message)`. -/
inductive Validator where
  | Required (message : String)
  | MaxLength (length : Int) (message : String)
  deriving DecidableEq, Repr

/-- The field constructors the program calls: `NewTextField`, `NewIntegerField` and
`NewMultipleTextField`. -/
inductive FieldKind where
  | text
  | integer
  | multipleText
  deriving DecidableEq, Repr

/-- The widget constructors the program calls: `CheckboxMultipleWidget` and `RadioSelectWidget`. -/
inductive WidgetKind where
  | checkboxMultiple
  | radioSelect
  deriving DecidableEq, Repr

/-- A widget: its attributes and its option maker. The option maker is a closure that `gforms`
calls when the widget is rendered; `options` is what the call gives, a panic included. -/
structure Widget where
  kind : WidgetKind
  attrs : List (String × String)
  options : Except Panic (List (List String))

/-- A field: the constructor, its first argument (the field's name), the validators and the
optional widget. -/
structure Field where
  kind : FieldKind
  name : String
  validators : List Validator
  widget : Option Widget

/-- The function `defineValidators`. -/
def defineValidators (go : Runtime) (files : Files) (q : List (String × Value))
    (locale : String) : Except Panic (List Validator) := do
  let errors ← readMap files "/opt/questionnaire/messages.json"
  let errorMessages ← assertMap (index errors locale)
  let required ← assertBool (index q "required")
  let validators : List Validator ←
    if required then do
      let message ← assertString (index errorMessages "required")
      pure [Validator.Required message]
    else pure []
  match assertFloat64? (index q "maxLength") with
  | some v => do
    let format ← assertString (index errorMessages "maxChars")
    pure (validators ++
      [Validator.MaxLength (floatToInt go v) (Sprintf go format [FmtArg.int (floatToInt go v)])])
  | none => pure validators

/-- The loop in the option maker closures of `getFields`: one option
`[v, v, "false", "false"]` for each choice, each of which must be a string. -/
def optionRows : List Value → Except Panic (List (List String))
  | [] => Except.ok []
  | v :: vs => do
    let value ← assertString v
    let display ← assertString v
    let rest ← optionRows vs
    pure ([value, display, "false", "false"] :: rest)

/-- The option maker closures of `getFields`, called: they range over
`q["choices"].([]interface{})`. -/
def choiceOptions (q : List (String × Value)) : Except Panic (List (List String)) := do
  let choices ← assertSlice (index q "choices")
  optionRows choices

/-- The widget of a choice question: the attributes `class` and `id` are both `q["name"]`. -/
def choiceWidget (kind : WidgetKind) (q : List (String × Value)) : Except Panic Widget := do
  let cls ← assertString (index q "name")
  let id ← assertString (index q "name")
  pure { kind := kind, attrs := [("class", cls), ("id", id)], options := choiceOptions q }

/-- The body of the loop of `getFields` for one question: the field appended to `fields`, and
`none` when the `switch` has no case for the question's type. -/
def buildField (go : Runtime) (files : Files) (question : Value) (locale : String) :
    Except Panic (Option Field) := do
  let q ← assertMap question
  let type ← assertString (index q "type")
  if type = "textBoxQuestion" then
    let name ← assertString (index q "question")
    let validators ← defineValidators go files q locale
    pure (some { kind := FieldKind.text, name := name, validators := validators, widget := none })
  else if type = "numberQuestion" then
    let name ← assertString (index q "question")
    let validators ← defineValidators go files q locale
    pure (some { kind := FieldKind.integer, name := name, validators := validators,
                 widget := none })
  else if type = "multipleChoiceQuestion" then
    let name ← assertString (index q "question")
    let validators ← defineValidators go files q locale
    let widget ← choiceWidget WidgetKind.checkboxMultiple q
    pure (some { kind := FieldKind.multipleText, name := name, validators := validators,
                 widget := some widget })
  else if type = "singleChoiceQuestion" then
    let name ← assertString (index q "question")
    let validators ← defineValidators go files q locale
    let widget ← choiceWidget WidgetKind.radioSelect q
    pure (some { kind := FieldKind.text, name := name, validators := validators,
                 widget := some widget })
  else pure none

/-- The function `getFields`: the fields of the questions, in order; the first panic ends it. -/
def getFields (go : Runtime) (files : Files) : List Value → String → Except Panic (List Field)
  | [], _ => Except.ok []
  | question :: questions, locale => do
    let field ← buildField go files question locale
    let fields ← getFields go files questions locale
    pure (field.toList ++ fields)

/-! ## The request, the form library and the world -/

/-- What the handler reads of the `*http.Request`: the method, `r.URL.Path` and the submitted
form values (each name with its values). -/
structure Request where
  Method : String
  Path : String
  Form : List (String × List String)

/-- The two things the handler asks of the `gforms` form instance built from the fields and the
request: `form.IsValid()` and, after it, `form.CleanedData`. -/
structure Gforms where
  IsValid : List Field → Request → Bool
  CleanedData : List Field → Request → Value

/-- A reading of `time.Now()`: the results of its methods `Year`, `Month`, `Day`, `Hour`, `Minute`
and `Second`. -/
structure Instant where
  Year : Int
  Month : Int
  Day : Int
  Hour : Int
  Minute : Int
  Second : Int
  deriving DecidableEq, Repr

/-- The world of the handler: the files it reads, whether `os.Create` succeeds at a path, the
successive readings of the wall clock with the number of readings taken so far, and the
records written so far (path and cleaned data, the latest first). -/
structure World where
  files : Files
  creatable : String → Bool
  clock : Nat → Instant
  reads : Nat
  records : List (String × Value)

/-- The flags `-d` (`answersDirectory`) and `-r` (`webRoot`). -/
structure Flags where
  answersDirectory : String
  webRoot : String

/-- The struct `templateContext`, with the form instance given by its fields and the request it
was made from. -/
structure templateContext where
  Message : String
  RequiredFields : String
  ScaleExplanation : String
  Form : List Field × Request
  Root : String

/-- The struct `thankYouMessage`; its field is a `template.HTML`, a string type. -/
structure thankYouMessage where
  Message : String

/-- What `t.Execute` is called with: the form template with its context, or the thank-you
template with its message. -/
inductive View where
  | form (ctx : templateContext)
  | thankYou (message : thankYouMessage)

/-- The result of one call of the handler: the world it leaves, the view it executed, if any,
and the panic that ended it, if any. -/
structure Outcome where
  world : World
  view : Option View
  panic : Option Panic

/-- The function `getMessage`. -/
def getMessage (files : Files) (locale messageString : String) : Except Panic String := do
  let messages ← readMap files "/opt/questionnaire/messages.json"
  let entry ← assertMap (index messages locale)
  assertString (index entry messageString)

/-- The function `StringToHTML`: the conversion of a string to the string type
`template.HTML`. -/
def StringToHTML (s : String) : String := s

/-- The function `getThankYouMessage`. -/
def getThankYouMessage (go : Runtime) (files : Files) (locale : String) :
    Except Panic thankYouMessage := do
  let message ← getMessage files locale "thankYou"
  let message := Sprintf go message [FmtArg.str "/"]
  pure ⟨StringToHTML message⟩

/-- The locale of a request: `getLocale(strings.SplitAfterN(r.URL.Path, "/", 2)[1])`. -/
def requestLocale (path : String) : Except Panic String := do
  let locale ← sliceIndex (SplitAfterN path "/" 2) 1
  pure (getLocale locale)

/-- The loading of the questions in `questionnaireHandler`, once the locale is known: the
question list of the locale is read and its fields are built. The result is the locale with the
fields. -/
def loadLocale (go : Runtime) (files : Files) (locale : String) :
    Except Panic (String × List Field) := do
  let questions ← readMap files "/opt/questionnaire/questions.json"
  let list ← assertSlice (index questions locale)
  let fields ← getFields go files list locale
  pure (locale, fields)

/-- The first part of `questionnaireHandler`, which only reads: the locale of the request and
the fields of the form. -/
def loadFields (go : Runtime) (files : Files) (path : String) :
    Except Panic (String × List Field) := do
  let locale ← requestLocale path
  loadLocale go files locale

/-- The branch of `questionnaireHandler` that renders the form: the template is parsed, the
three messages are looked up, the template is executed. -/
def renderForm (files : Files) (flags : Flags) (locale : String) (form : List Field × Request) :
    Except Panic View := do
  mustParseFiles files "/opt/questionnaire/questionnaire.html"
  let message ← getMessage files locale "questionnaireExplanation"
  let requiredFields ← getMessage files locale "requiredFields"
  let scaleExplanation ← getMessage files locale "scaleExplanation"
  pure (View.form ⟨message, requiredFields, scaleExplanation, form, flags.webRoot⟩)

/-- The end of `questionnaireHandler`: the thank-you template is parsed, the message is built,
the template is executed. -/
def renderThankYou (go : Runtime) (files : Files) (locale : String) : Except Panic View := do
  mustParseFiles files "/op/questionnaire/thankYou.html"
  let message ← getThankYouMessage go files locale
  pure (View.thankYou message)

/-- The string `timeString` of `questionnaireHandler`: each operand is taken from a call of
`time.Now()` of its own, the calls being made from left to right. (`Month()` is a `time.Month`,
which the verb `d` prints as an integer.) -/
def timeString (go : Runtime) (clock : Nat → Instant) (reads : Nat) : String :=
  Sprintf go "%d-%02d-%02dT%02d:%02d:%02d"
    [FmtArg.int (clock reads).Year, FmtArg.int (clock (reads + 1)).Month,
     FmtArg.int (clock (reads + 2)).Day, FmtArg.int (clock (reads + 3)).Hour,
     FmtArg.int (clock (reads + 4)).Minute, FmtArg.int (clock (reads + 5)).Second]

/-- The path given to `os.Create`. -/
def recordPath (go : Runtime) (flags : Flags) (w : World) : String :=
  flags.answersDirectory ++ "/" ++ timeString go w.clock w.reads ++ ".json"

/-- The second part of `questionnaireHandler`, from the test of the method on, for the locale
and the fields loaded in the first part. The line printed to the standard output is left out;
`json.Marshal` of the cleaned data does not fail, and the record is kept as the cleaned data
themselves. The errors of `t.Execute` and of `f.WriteString` are dropped by the code. -/
def serve (go : Runtime) (flags : Flags) (lib : Gforms) (w : World) (r : Request)
    (locale : String) (fields : List Field) : Outcome :=
  if r.Method == "GET" || !lib.IsValid fields r then
    match renderForm w.files flags locale (fields, r) with
    | Except.error p => ⟨w, none, some p⟩
    | Except.ok view => ⟨w, some view, none⟩
  else
    let path := recordPath go flags w
    let w := { w with reads := w.reads + 6 }
    if w.creatable path then
      let w := { w with records := (path, lib.CleanedData fields r) :: w.records }
      match renderThankYou go w.files locale with
      | Except.error p => ⟨w, none, some p⟩
      | Except.ok view => ⟨w, some view, none⟩
    else ⟨w, none, some (Panic.error "Create")⟩

/-- The function `questionnaireHandler`: the locale and the fields are loaded, then the request
is served. The response header that the function sets first is left out. -/
def questionnaireHandler (go : Runtime) (flags : Flags) (lib : Gforms) (w : World)
    (r : Request) : Outcome :=
  match loadFields go w.files r.Path with
  | Except.error p => ⟨w, none, some p⟩
  | Except.ok (locale, fields) => serve go flags lib w r locale fields

/-! ## A form library after the specification -/

/-- Modelled from the spec: the binding of `gforms` is not part of the sources; section 4.5 says
that `bind` attaches to a field the request values submitted under the field's name. -/
def boundValues (f : Field) (r : Request) : List String :=
  match r.Form.lookup f.name with
  | some values => values
  | none => []

/-- Modelled from the spec: the validators of `gforms` are not part of the sources; section 8
says that Required rejects an empty value, and MaxLength(N) a value longer than N. -/
def Validator.rejects (value : String) : Validator → Bool
  | Validator.Required _ => value = ""
  | Validator.MaxLength n _ => n < (value.length : Int)

/-- Modelled from the spec: the validation of a field in `gforms` is not part of the sources;
section 4.5 says that a field is in error when a validator of its chain rejects the bound
value, and section 4.4 that a number field rejects input that is not an integer. -/
def fieldValid (f : Field) (r : Request) : Bool :=
  let value := (boundValues f r).headD ""
  (f.validators.all fun v => !v.rejects value) &&
    (f.kind != FieldKind.integer || value = "" || value.toInt?.isSome)

/-- Modelled from the spec: the cleaned value of a field in `gforms` is not part of the sources;
section 4.5 says that it is a string, an integer or the ordered set of the selected strings. -/
def cleanedValue (f : Field) (r : Request) : Value :=
  match f.kind with
  | FieldKind.text => Value.string ((boundValues f r).headD "")
  | FieldKind.integer =>
    match ((boundValues f r).headD "").toInt? with
    | some n => Value.number n
    | none => Value.null
  | FieldKind.multipleText => Value.array ((boundValues f r).map Value.string)

/-- Modelled from the spec: the form instance of `gforms` is not part of the sources; section 4.5
says that the form is valid when no field is in error, and that the cleaned data map each
field's name to its cleaned value. -/
def specForms : Gforms where
  IsValid := fun fields r => fields.all fun f => fieldValid f r
  CleanedData := fun fields r => Value.object (fields.map fun f => (f.name, cleanedValue f r))

/-! ## What the statements below speak of -/

/-- The `required` and `maxChars` messages of the locale in the message catalog, when the
catalog loads, has an entry for the locale and both messages are strings. -/
def catalogMessages (files : Files) (locale : String) : Option (String × String) :=
  match readMap files "/opt/questionnaire/messages.json" with
  | Except.ok errors =>
    match index errors locale with
    | Value.object messages =>
      match index messages "required", index messages "maxChars" with
      | Value.string required, Value.string maxChars => some (required, maxChars)
      | _, _ => none
    | _ => none
  | Except.error _ => none

/-- The message catalog has an entry for the locale whose `required` and `maxChars` messages are
the two given strings. -/
def CatalogEntry (files : Files) (locale required maxChars : String) : Prop :=
  catalogMessages files locale = some (required, maxChars)

instance (files : Files) (locale required maxChars : String) :
    Decidable (CatalogEntry files locale required maxChars) := by
  unfold CatalogEntry
  infer_instance

/-- The chain a `required` flag asks for. -/
def requiredChain (flag : Bool) (message : String) : List Validator :=
  if flag then [Validator.Required message] else []

/-- The chain a `maxLength` value asks for: one validator for a number, none otherwise. -/
def maxLengthChain (go : Runtime) (maxChars : String) : Value → List Validator
  | Value.number v =>
    [Validator.MaxLength (floatToInt go v) (Sprintf go maxChars [FmtArg.int (floatToInt go v)])]
  | _ => []

/-- The four question types that `getFields` has a case for. -/
def knownType (t : String) : Bool :=
  t = "textBoxQuestion" || t = "numberQuestion" || t = "multipleChoiceQuestion" ||
    t = "singleChoiceQuestion"

/-- The two question types whose field has a choice widget. -/
def choiceType (t : String) : Bool :=
  t = "multipleChoiceQuestion" || t = "singleChoiceQuestion"

/-- The value is a JSON string. -/
def Value.isString : Value → Bool
  | Value.string _ => true
  | _ => false

/-- The value is a JSON boolean. -/
def Value.isBool : Value → Bool
  | Value.bool _ => true
  | _ => false

/-- The `type` of a question, and the empty string for a value without a string `type`. -/
def questionType : Value → String
  | Value.object q =>
    match index q "type" with
    | Value.string t => t
    | _ => ""
  | _ => ""

/-- The `question` text of a question, and the empty string for a value without one. -/
def questionText : Value → String
  | Value.object q =>
    match index q "question" with
    | Value.string s => s
    | _ => ""
  | _ => ""

/-- A well-typed question: a JSON object with a string `type` and, when the type is one of the
four known ones, a string `question` and a boolean `required` and, for the two choice types, a
string `name`. -/
def wellTyped : Value → Bool
  | Value.object q =>
    match index q "type" with
    | Value.string t =>
      !knownType t ||
        ((index q "question").isString && (index q "required").isBool &&
          (!choiceType t || (index q "name").isString))
    | _ => false
  | _ => false

/-- The field the specification gives for a question type: a text field, an integer field, a
multi-valued field with a checkbox widget, a single-valued text field with a radio widget; and
none for any other type. -/
def fieldFor (t : String) : Option (FieldKind × Option WidgetKind) :=
  if t = "textBoxQuestion" then some (FieldKind.text, none)
  else if t = "numberQuestion" then some (FieldKind.integer, none)
  else if t = "multipleChoiceQuestion" then
    some (FieldKind.multipleText, some WidgetKind.checkboxMultiple)
  else if t = "singleChoiceQuestion" then some (FieldKind.text, some WidgetKind.radioSelect)
  else none

/-- The constructor and the widget of a field. -/
def Field.shape (f : Field) : FieldKind × Option WidgetKind :=
  (f.kind, f.widget.map Widget.kind)

/-- The names of the fields of the form that a view shows. -/
def View.fieldNames : View → List String
  | View.form ctx => ctx.Form.1.map Field.name
  | View.thankYou _ => []

/-- The first segment of a path, in the words of the specification: the text between the leading
`/` and the next `/` or the end of the path. -/
def firstSegment (path : String) : String :=
  String.mk ((path.data.drop 1).takeWhile fun c => c != '/')

/-- A question list used in the examples: a required text box, a question of the unknown type
`dateQuestion`, and a single choice question. -/
def exampleQuestions : List Value :=
  [Value.object [("type", Value.string "textBoxQuestion"), ("question", Value.string "Your name"),
     ("name", Value.string "name"), ("required", Value.bool true)],
   Value.object [("type", Value.string "dateQuestion"), ("question", Value.string "When?")],
   Value.object [("type", Value.string "singleChoiceQuestion"),
     ("question", Value.string "Colour"), ("name", Value.string "colour"),
     ("required", Value.bool false),
     ("choices", Value.array [Value.string "red", Value.string "blue"])]]

/-- The six messages of one locale in the example catalog. -/
def exampleMessages : Value :=
  Value.object
    [("required", Value.string "This field is required"),
     ("maxChars", Value.string "At most %d characters"),
     ("questionnaireExplanation", Value.string "Please answer"),
     ("requiredFields", Value.string "Required fields"),
     ("scaleExplanation", Value.string "From 1 to 5"),
     ("thankYou", Value.string "Thank you! Back to %s")]

/-- A small catalog and schema, used in the examples: the six messages for both locales, one
required English text box whose `question` is `Your name` and whose `name` is `name`, one
optional Arabic text box, and the two templates under `/opt/questionnaire`. -/
def exampleFiles : Files :=
  [("/opt/questionnaire/messages.json",
    ⟨some (Value.object [("en", exampleMessages), ("ar", exampleMessages)]), false⟩),
   ("/opt/questionnaire/questions.json",
    ⟨some (Value.object [("en", Value.array [Value.object
      [("type", Value.string "textBoxQuestion"), ("question", Value.string "Your name"),
       ("name", Value.string "name"), ("required", Value.bool true)]]),
      ("ar", Value.array [Value.object
      [("type", Value.string "textBoxQuestion"), ("question", Value.string "Comments"),
       ("name", Value.string "comments"), ("required", Value.bool false)]])]), false⟩),
   ("/opt/questionnaire/questionnaire.html", ⟨none, true⟩),
   ("/opt/questionnaire/thankYou.html", ⟨none, true⟩)]

/-- A Go implementation for the examples: out of range `int(v)` gives the least `int`, as the
conversion instruction of amd64 does. The formats of the examples lie within the modelled
fragment of `fmt`, so that its result elsewhere plays no part in them. -/
def exampleGo : Runtime := ⟨fun _ => -9223372036854775808, fun _ _ => ""⟩

/-- The example files without the message catalog. -/
def noCatalogFiles : Files := exampleFiles.drop 1

/-- The flags of the examples: the default answers directory and web root. -/
def exampleFlags : Flags := ⟨"questionnaire-answers", "/"⟩

/-- A world over the example files in which every file can be created and the clock stands at
2024-03-09 14:05:07. -/
def exampleWorld : World :=
  ⟨exampleFiles, fun _ => true, fun _ => ⟨2024, 3, 9, 14, 5, 7⟩, 0, []⟩

/-- The example world with a clock that passes from 2024-12-31 23:59:59 to 2025-01-01 00:00:00
between its first and its second reading. -/
def newYearWorld : World :=
  ⟨exampleFiles, fun _ => true,
    fun n => if n = 0 then ⟨2024, 12, 31, 23, 59, 59⟩ else ⟨2025, 1, 1, 0, 0, 0⟩, 0, []⟩

/-- A valid submission for the example schema. -/
def examplePost : Request := ⟨"POST", "/", [("Your name", ["Ada"])]⟩

/-- The number in decimal with at least the given number of digits, zeros in front. -/
def zeroPadded (width n : Nat) : String :=
  String.mk (List.replicate (width - (Nat.toDigits 10 n).length) '0' ++ Nat.toDigits 10 n)

/-- An instant in the format of the specification, `YYYY-MM-DDTHH:MM:SS`: a year of 4 digits;
month, day, hour, minute and second of 2 digits each. -/
def isoSecond (t : Instant) : String :=
  zeroPadded 4 t.Year.toNat ++ "-" ++ zeroPadded 2 t.Month.toNat ++ "-" ++
    zeroPadded 2 t.Day.toNat ++ "T" ++ zeroPadded 2 t.Hour.toNat ++ ":" ++
    zeroPadded 2 t.Minute.toNat ++ ":" ++ zeroPadded 2 t.Second.toNat

/-! ## Lemmas -/

theorem bind_ok {α β : Type} (a : α) (f : α → Except Panic β) :
    (Except.ok a >>= f) = f a := rfl

theorem bind_error {α β : Type} (e : Panic) (f : α → Except Panic β) :
    ((Except.error e : Except Panic α) >>= f) = Except.error e := rfl

theorem pure_eq_ok {α : Type} (a : α) : (pure a : Except Panic α) = Except.ok a := rfl

theorem map_ok {α β : Type} (f : α → β) (a : α) :
    f <$> (Except.ok a : Except Panic α) = Except.ok (f a) := rfl

theorem map_error {α β : Type} (f : α → β) (e : Panic) :
    f <$> (Except.error e : Except Panic α) = Except.error e := rfl

theorem assertString_string (s : String) : assertString (Value.string s) = Except.ok s := rfl

theorem exampleFiles_catalog :
    CatalogEntry exampleFiles "en" "This field is required" "At most %d characters" := by
  decide

/-- What a catalog entry says of the reads of `defineValidators`. -/
theorem CatalogEntry.reads {files : Files} {locale required maxChars : String}
    (h : CatalogEntry files locale required maxChars) :
    ∃ errors messages,
      readMap files "/opt/questionnaire/messages.json" = Except.ok errors ∧
      index errors locale = Value.object messages ∧
      index messages "required" = Value.string required ∧
      index messages "maxChars" = Value.string maxChars := by
  unfold CatalogEntry catalogMessages at h
  cases hread : readMap files "/opt/questionnaire/messages.json" with
  | error p => simp [hread] at h
  | ok errors =>
    cases hentry : index errors locale with
    | object messages =>
      cases hreq : index messages "required" with
      | string a =>
        cases hmax : index messages "maxChars" with
        | string b =>
          simp only [hread, hentry, hreq, hmax, Option.some.injEq, Prod.mk.injEq] at h
          obtain ⟨rfl, rfl⟩ := h
          exact ⟨errors, messages, rfl, hentry, hreq, hmax⟩
        | _ => simp [hread, hentry, hreq, hmax] at h
      | _ => simp [hread, hentry, hreq] at h
    | _ => simp [hread, hentry] at h

/-- With the catalog entry in place and a boolean `required`, `defineValidators` returns the
chain of the flag followed by the chain of `maxLength`. -/
theorem defineValidators_eq (go : Runtime) (files : Files) (q : List (String × Value))
    (locale required maxChars : String) (flag : Bool)
    (hcat : CatalogEntry files locale required maxChars)
    (hflag : index q "required" = Value.bool flag) :
    defineValidators go files q locale =
      Except.ok (requiredChain flag required ++ maxLengthChain go maxChars (index q "maxLength")) := by
  obtain ⟨errors, messages, hread, hentry, hreq, hmax⟩ := hcat.reads
  unfold defineValidators
  rw [hread, bind_ok, hentry]
  simp only [assertMap, bind_ok, hflag, assertBool]
  cases flag <;> cases hml : index q "maxLength" <;>
    simp [assertFloat64?, maxLengthChain, requiredChain, hreq, hmax, assertString, bind_ok,
      pure_eq_ok]

/-- Whatever chain `defineValidators` returns, the `required` flag was a boolean and the chain is
the chain of the flag followed by the chain of `maxLength`. -/
theorem defineValidators_ok_inv (go : Runtime) (files : Files) (q : List (String × Value))
    (locale required maxChars : String) (chain : List Validator)
    (hcat : CatalogEntry files locale required maxChars)
    (h : defineValidators go files q locale = Except.ok chain) :
    ∃ flag, index q "required" = Value.bool flag ∧
      chain = requiredChain flag required ++ maxLengthChain go maxChars (index q "maxLength") := by
  cases hflag : index q "required" with
  | bool flag =>
    refine ⟨flag, rfl, ?_⟩
    rw [defineValidators_eq go files q locale required maxChars flag hcat hflag] at h
    exact (Except.ok.inj h).symm
  | _ =>
    obtain ⟨errors, messages, hread, hentry, -, -⟩ := hcat.reads
    unfold defineValidators at h
    rw [hread, bind_ok, hentry] at h
    simp [assertMap, bind_ok, hflag, assertBool, bind_error] at h

theorem knownType_iff (t : String) :
    knownType t = true ↔ t = "textBoxQuestion" ∨ t = "numberQuestion" ∨
      t = "multipleChoiceQuestion" ∨ t = "singleChoiceQuestion" := by
  simp [knownType, or_assoc]

theorem fieldFor_isSome (t : String) : (fieldFor t).isSome = knownType t := by
  unfold fieldFor knownType
  by_cases h1 : t = "textBoxQuestion" <;> by_cases h2 : t = "numberQuestion" <;>
    by_cases h3 : t = "multipleChoiceQuestion" <;> by_cases h4 : t = "singleChoiceQuestion" <;>
    simp [h1, h2, h3, h4]

/-- The field `getFields` builds for a question of a known type whose `question` is a string and
whose `required` is a boolean (and whose `name` is a string, in a choice question). -/
theorem buildField_known (go : Runtime) (files : Files) (q : List (String × Value))
    (locale required maxChars t s : String) (flag : Bool)
    (hcat : CatalogEntry files locale required maxChars)
    (ht : index q "type" = Value.string t) (hk : knownType t = true)
    (hs : index q "question" = Value.string s)
    (hflag : index q "required" = Value.bool flag)
    (hn : choiceType t = true → (index q "name").isString = true) :
    ∃ f, buildField go files (Value.object q) locale = Except.ok (some f) ∧
      f.name = s ∧
      f.validators = requiredChain flag required ++ maxLengthChain go maxChars (index q "maxLength") ∧
      some f.shape = fieldFor t ∧
      (choiceType t = false → f.widget.isNone = true) ∧
      ∀ wd, f.widget = some wd →
        wd.options = choiceOptions q ∧
        ∃ n, index q "name" = Value.string n ∧ wd.attrs = [("class", n), ("id", n)] := by
  have hdv := defineValidators_eq go files q locale required maxChars flag hcat hflag
  rcases (knownType_iff t).mp hk with h | h | h | h <;> subst h
  · refine ⟨⟨FieldKind.text, s, _, none⟩, ?_, rfl, rfl, ?_, ?_, ?_⟩
    · simp [buildField, assertMap, bind_ok, ht, assertString, hs, hdv, pure_eq_ok]
    · simp [fieldFor, Field.shape]
    · simp
    · simp
  · refine ⟨⟨FieldKind.integer, s, _, none⟩, ?_, rfl, rfl, ?_, ?_, ?_⟩
    · simp [buildField, assertMap, bind_ok, ht, assertString, hs, hdv, pure_eq_ok]
    · simp [fieldFor, Field.shape]
    · simp
    · simp
  · have hname := hn (by decide)
    cases hnm : index q "name" with
    | string n =>
      refine ⟨⟨FieldKind.multipleText, s, _,
        some ⟨WidgetKind.checkboxMultiple, [("class", n), ("id", n)], choiceOptions q⟩⟩,
        ?_, rfl, rfl, ?_, ?_, ?_⟩
      · simp [buildField, assertMap, bind_ok, ht, assertString, hs, hdv, pure_eq_ok,
          choiceWidget, hnm]
      · simp [fieldFor, Field.shape]
      · simp [choiceType]
      · simp
    | _ => simp [hnm, Value.isString] at hname
  · have hname := hn (by decide)
    cases hnm : index q "name" with
    | string n =>
      refine ⟨⟨FieldKind.text, s, _,
        some ⟨WidgetKind.radioSelect, [("class", n), ("id", n)], choiceOptions q⟩⟩,
        ?_, rfl, rfl, ?_, ?_, ?_⟩
      · simp [buildField, assertMap, bind_ok, ht, assertString, hs, hdv, pure_eq_ok,
          choiceWidget, hnm]
      · simp [fieldFor, Field.shape]
      · simp [choiceType]
      · simp
    | _ => simp [hnm, Value.isString] at hname

/-- No field is built for a question whose type is none of the four. -/
theorem buildField_unknown (go : Runtime) (files : Files) (q : List (String × Value)) (locale t : String)
    (ht : index q "type" = Value.string t) (hk : knownType t = false) :
    buildField go files (Value.object q) locale = Except.ok none := by
  have h := (knownType_iff t).not.mp (by simp [hk])
  simp only [not_or] at h
  obtain ⟨h1, h2, h3, h4⟩ := h
  simp [buildField, assertMap, bind_ok, ht, assertString, h1, h2, h3, h4, pure_eq_ok]

/-- What `buildField` gives for a well-typed question. -/
theorem buildField_wellTyped (go : Runtime) (files : Files) (question : Value)
    (locale required maxChars : String)
    (hcat : CatalogEntry files locale required maxChars) (hwt : wellTyped question = true) :
    ∃ r, buildField go files question locale = Except.ok r ∧
      r.map Field.shape = fieldFor (questionType question) ∧
      r.map Field.name = (fieldFor (questionType question)).map fun _ => questionText question := by
  cases question with
  | object q =>
    cases ht : index q "type" with
    | string t =>
      cases hk : knownType t with
      | false =>
        have hnone : fieldFor t = none := by
          have := fieldFor_isSome t
          rw [hk] at this
          cases hff : fieldFor t with
          | none => rfl
          | some x => simp [hff] at this
        exact ⟨none, buildField_unknown go files q locale t ht hk, by simp [questionType, ht, hnone],
          by simp [questionType, ht, hnone]⟩
      | true =>
        simp only [wellTyped, ht, hk, Bool.not_true, Bool.false_or, Bool.and_eq_true] at hwt
        obtain ⟨⟨hq, hr⟩, hn⟩ := hwt
        cases hs : index q "question" with
        | string s =>
          cases hflag : index q "required" with
          | bool flag =>
            obtain ⟨f, hf, hname, -, hshape, -, -⟩ :=
              buildField_known go files q locale required maxChars t s flag hcat ht hk hs hflag
                (fun hc => by simpa [hc] using hn)
            refine ⟨some f, hf, ?_, ?_⟩
            · simp [questionType, ht, ← hshape]
            · simp [questionType, questionText, ht, hs, ← hshape, hname]
          | _ => simp [hflag, Value.isBool] at hr
        | _ => simp [hs, Value.isString] at hq
    | _ => simp [wellTyped, ht] at hwt
  | _ => simp [wellTyped] at hwt

theorem isString_false_assert (v : Value) (h : v.isString = false) :
    assertString v = Except.error Panic.typeAssertion := by
  cases v <;> simp_all [Value.isString, assertString]

theorem isBool_false_assert (v : Value) (h : v.isBool = false) :
    assertBool v = Except.error Panic.typeAssertion := by
  cases v <;> simp_all [Value.isBool, assertBool]

/-- The function `defineValidators` panics when `required` is not a boolean. -/
theorem defineValidators_error_of_required (go : Runtime) (files : Files) (q : List (String × Value))
    (locale : String) (h : (index q "required").isBool = false) :
    ∃ p, defineValidators go files q locale = Except.error p := by
  unfold defineValidators
  cases readMap files "/opt/questionnaire/messages.json" with
  | error p => exact ⟨p, rfl⟩
  | ok errors =>
    rw [bind_ok]
    cases assertMap (index errors locale) with
    | error p => exact ⟨p, rfl⟩
    | ok messages =>
      rw [bind_ok, isBool_false_assert _ h]
      exact ⟨_, rfl⟩

/-- The body of the loop panics on a question of a known type whose `question` is not a string,
whose `required` is not a boolean or, for a choice type, whose `name` is not a string. -/
theorem buildField_error (go : Runtime) (files : Files) (q : List (String × Value)) (locale t : String)
    (ht : index q "type" = Value.string t) (hk : knownType t = true)
    (h : (index q "question").isString = false ∨ (index q "required").isBool = false ∨
      (choiceType t = true ∧ (index q "name").isString = false)) :
    ∃ p, buildField go files (Value.object q) locale = Except.error p := by
  have hcw : (index q "name").isString = false → ∀ kind,
      choiceWidget kind q = Except.error Panic.typeAssertion := by
    intro hn kind
    simp [choiceWidget, isString_false_assert _ hn, bind_error]
  cases hq : assertString (index q "question") with
  | error p =>
    rcases (knownType_iff t).mp hk with e | e | e | e <;> subst e <;>
      exact ⟨p, by simp [buildField, assertMap, bind_ok, ht, assertString_string, hq, bind_error]⟩
  | ok s =>
    have hq' : (index q "question").isString = true := by
      cases hv : index q "question" <;> simp_all [assertString, Value.isString]
    rcases h with h | h | ⟨hc, hn⟩
    · simp [hq'] at h
    · obtain ⟨p, hp⟩ := defineValidators_error_of_required go files q locale h
      rcases (knownType_iff t).mp hk with e | e | e | e <;> subst e <;>
        exact ⟨p, by simp [buildField, assertMap, bind_ok, ht, assertString_string, hq, hp,
          bind_error, map_error]⟩
    · cases hd : defineValidators go files q locale with
      | error p =>
        rcases (knownType_iff t).mp hk with e | e | e | e <;> subst e <;>
          exact ⟨p, by simp [buildField, assertMap, bind_ok, ht, assertString_string, hq, hd,
            bind_error, map_error]⟩
      | ok chain =>
        rcases (knownType_iff t).mp hk with e | e | e | e <;> subst e
        · simp [choiceType] at hc
        · simp [choiceType] at hc
        · exact ⟨Panic.typeAssertion, by
            simp [buildField, assertMap, bind_ok, ht, assertString_string, hq, hd, hcw hn,
              bind_error, map_error]⟩
        · exact ⟨Panic.typeAssertion, by
            simp [buildField, assertMap, bind_ok, ht, assertString_string, hq, hd, hcw hn,
              bind_error, map_error]⟩

/-- A panic on one question is a panic of `getFields`. -/
theorem getFields_error_of_mem (go : Runtime) (files : Files) (locale : String) (question : Value)
    (h : ∃ p, buildField go files question locale = Except.error p) :
    ∀ questions : List Value, question ∈ questions →
      ∃ p, getFields go files questions locale = Except.error p := by
  intro questions
  induction questions with
  | nil => intro hmem; simp at hmem
  | cons x rest ih =>
    intro hmem
    cases hx : buildField go files x locale with
    | error p => exact ⟨p, by simp [getFields, hx, bind_error]⟩
    | ok r =>
      rcases List.mem_cons.mp hmem with e | e
      · subst e
        obtain ⟨p, hp⟩ := h
        rw [hp] at hx
        cases hx
      · obtain ⟨p, hp⟩ := ih e
        exact ⟨p, by simp [getFields, hx, hp, bind_ok, bind_error]⟩

theorem splitAfterN_slash (rest : String) : SplitAfterN ("/" ++ rest) "/" 2 = ["/", rest] := by
  have hdata : ("/" ++ rest).data = '/' :: rest.data := by
    simp [String.data_append]
  have hsize : ¬ (2 > ("/" ++ rest).utf8ByteSize + 1) := by
    have : ("/" ++ rest) = String.mk ('/' :: rest.data) := by
      rw [← hdata]
    rw [this, String.utf8ByteSize_mk, String.utf8Len_cons]
    have := Char.utf8Size_pos '/'
    omega
  have hsep : ("/" : String) ≠ "" := by decide
  unfold SplitAfterN
  simp only [show (2 : Int) ≠ 0 by decide, if_false, hsep, show ¬ ((2 : Int) < 0) by decide,
    hsize, hdata]
  simp [splitAfterLoop, Index, List.isPrefixOf]

theorem toDigitsCore_length_ge (b : Nat) : ∀ (f n : Nat) (ds : List Char),
    ds.length ≤ (Nat.toDigitsCore b f n ds).length := by
  intro f
  induction f with
  | zero => intro n ds; simp [Nat.toDigitsCore]
  | succ f ih =>
    intro n ds
    simp only [Nat.toDigitsCore]
    split
    · simp
    · have := ih (n / b) (Nat.digitChar (n % b) :: ds)
      simp only [List.length_cons] at this
      omega

theorem toDigitsCore_length_gt (b f n : Nat) (ds : List Char) :
    ds.length + 1 ≤ (Nat.toDigitsCore b (f + 1) n ds).length := by
  simp only [Nat.toDigitsCore]
  split
  · simp
  · have := toDigitsCore_length_ge b f (n / b) (Nat.digitChar (n % b) :: ds)
    simpa using this

theorem toDigitsCore_step (f n : Nat) (ds : List Char) (h : n / 10 ≠ 0) :
    Nat.toDigitsCore 10 (f + 1) n ds =
      Nat.toDigitsCore 10 f (n / 10) (Nat.digitChar (n % 10) :: ds) := by
  simp [Nat.toDigitsCore, h]

/-- A year from 1000 on is written with at least four digits. -/
theorem toDigits_length_ge_four (y : Nat) (h : 1000 ≤ y) : 4 ≤ (Nat.toDigits 10 y).length := by
  obtain ⟨f, hf⟩ : ∃ f, y + 1 = f + 1 + 1 + 1 + 1 := ⟨y - 3, by omega⟩
  have h1 : y / 10 ≠ 0 := by omega
  have h2 : y / 10 / 10 ≠ 0 := by omega
  have h3 : y / 10 / 10 / 10 ≠ 0 := by omega
  unfold Nat.toDigits
  rw [hf, toDigitsCore_step _ _ _ h1, toDigitsCore_step _ _ _ h2, toDigitsCore_step _ _ _ h3]
  have := toDigitsCore_length_gt 10 f (y / 10 / 10 / 10)
    [Nat.digitChar (y / 10 / 10 % 10), Nat.digitChar (y / 10 % 10), Nat.digitChar (y % 10)]
  simpa using this

/-- The verb `%d` on a natural number writes its decimal digits. -/
theorem fmtInteger_plain (n : Nat) : fmtInteger {} (n : Int) = Nat.toDigits 10 n := by
  simp [fmtInteger, fmtPad]

/-- The verb `%02d` on a natural number writes it with at least two digits, zeros in front. -/
theorem fmtInteger_zero_two (n : Nat) :
    fmtInteger { zero := true, wid := some 2 } (n : Int) = (zeroPadded 2 n).data := by
  have h : ¬ ((n : Int) < 0) := by omega
  simp only [fmtInteger, fmtPad, zeroPadded, h, decide_False, Bool.false_or, Int.natAbs_ofNat]
  simp
  omega

/-- When the six readings of the clock give one and the same instant, of a year from 1000 on,
`timeString` is that instant in the format `YYYY-MM-DDTHH:MM:SS`. -/
theorem timeString_one_instant (go : Runtime) (clock : Nat → Instant) (reads : Nat)
    (Y M D h m s : Nat) (hclock : ∀ k < 6, clock (reads + k) = ⟨Y, M, D, h, m, s⟩) (hy : 1000 ≤ Y) :
    timeString go clock reads = isoSecond ⟨Y, M, D, h, m, s⟩ := by
  have h0 := hclock 0 (by decide)
  have h1 := hclock 1 (by decide)
  have h2 := hclock 2 (by decide)
  have h3 := hclock 3 (by decide)
  have h4 := hclock 4 (by decide)
  have h5 := hclock 5 (by decide)
  simp only [Nat.add_zero] at h0
  have hfmt : "%d-%02d-%02dT%02d:%02d:%02d".data =
      ['%', 'd', '-', '%', '0', '2', 'd', '-', '%', '0', '2', 'd', 'T', '%', '0', '2', 'd', ':',
        '%', '0', '2', 'd', ':', '%', '0', '2', 'd'] := rfl
  simp only [timeString, h0, h1, h2, h3, h4, h5, Sprintf, sprintfFragment, hfmt]
  simp [doPrintf, doVerb, printArg, extraArgs, fmtInteger_plain, fmtInteger_zero_two]
  have hY : zeroPadded 4 Y = String.mk (Nat.toDigits 10 Y) := by
    simp [zeroPadded, Nat.sub_eq_zero_of_le (toDigits_length_ge_four Y hy)]
  simp only [isoSecond, Int.toNat_ofNat, hY]
  apply String.ext
  simp [String.data_append]

/-- What `renderForm` gives is the form view. -/
theorem renderForm_form (files : Files) (flags : Flags) (locale : String)
    (form : List Field × Request) (view : View)
    (h : renderForm files flags locale form = Except.ok view) : ∃ ctx, view = View.form ctx := by
  unfold renderForm at h
  cases h1 : mustParseFiles files "/opt/questionnaire/questionnaire.html" with
  | error p => simp [h1, bind_error] at h
  | ok u =>
    cases h2 : getMessage files locale "questionnaireExplanation" with
    | error p => simp [h1, h2, bind_ok, bind_error] at h
    | ok m1 =>
      cases h3 : getMessage files locale "requiredFields" with
      | error p => simp [h1, h2, h3, bind_ok, bind_error] at h
      | ok m2 =>
        cases h4 : getMessage files locale "scaleExplanation" with
        | error p => simp [h1, h2, h3, h4, bind_ok, bind_error] at h
        | ok m3 =>
          simp [h1, h2, h3, h4, bind_ok, pure_eq_ok] at h
          exact ⟨_, h.symm⟩

/-- Without a file at `/op/questionnaire/thankYou.html` the handler never renders the thank-you
view, whatever the request. -/
theorem thankYou_needs_op_file (go : Runtime) (flags : Flags) (lib : Gforms) (w : World)
    (r : Request) (h : w.files.lookup "/op/questionnaire/thankYou.html" = none) (m : thankYouMessage) :
    (questionnaireHandler go flags lib w r).view ≠ some (View.thankYou m) := by
  unfold questionnaireHandler
  cases hload : loadFields go w.files r.Path with
  | error p => simp
  | ok lf =>
    obtain ⟨locale, fields⟩ := lf
    simp only [serve]
    split
    · cases hrender : renderForm w.files flags locale (fields, r) with
      | error p => simp
      | ok view =>
        obtain ⟨ctx, rfl⟩ := renderForm_form _ _ _ _ _ hrender
        simp
    · have hty : renderThankYou go w.files locale = Except.error (Panic.error "ParseFiles") := by
        simp [renderThankYou, mustParseFiles, h, bind_error]
      split
      · simp [hty]
      · simp

/-- Within the range of `int` the conversion `int(v)` discards the fraction. -/
theorem floatToInt_inRange (go : Runtime) (v : ℚ) (h1 : -9223372036854775809 < v)
    (h2 : v < 9223372036854775808) :
    floatToInt go v = if 0 ≤ v then ⌊v⌋ else ⌈v⌉ := by
  unfold floatToInt
  simp only
  rw [if_pos]
  split
  · next h =>
    refine ⟨le_trans (by norm_num) (Int.floor_nonneg.mpr h), ?_⟩
    have : ⌊v⌋ < 9223372036854775808 := Int.floor_lt.mpr (by exact_mod_cast h2)
    omega
  · next h =>
    have hv0 : v ≤ 0 := le_of_lt (not_le.mp h)
    have hc : ⌈v⌉ ≤ 0 := Int.ceil_le.mpr (by exact_mod_cast hv0)
    have : -9223372036854775809 < ⌈v⌉ := Int.lt_ceil.mpr (by exact_mod_cast h1)
    exact ⟨by omega, by omega⟩

/-- The number with its fraction discarded is no further from zero than the number and less
than one away from it. -/
theorem truncate_bounds (v : ℚ) :
    |(((if 0 ≤ v then ⌊v⌋ else ⌈v⌉ : Int)) : ℚ)| ≤ |v| ∧
      |v - ((if 0 ≤ v then ⌊v⌋ else ⌈v⌉ : Int) : ℚ)| < 1 := by
  split
  · next h =>
    refine ⟨?_, ?_⟩
    · rw [abs_of_nonneg h, abs_of_nonneg (by exact_mod_cast Int.floor_nonneg.mpr h)]
      exact Int.floor_le v
    · rw [abs_of_nonneg (by linarith [Int.floor_le v])]
      linarith [Int.lt_floor_add_one v]
  · next h =>
    have hv0 : v < 0 := not_le.mp h
    have hc : (⌈v⌉ : ℚ) ≤ 0 := by
      exact_mod_cast Int.ceil_le.mpr (by exact_mod_cast hv0.le)
    refine ⟨?_, ?_⟩
    · rw [abs_of_neg hv0, abs_of_nonpos hc]
      linarith [Int.le_ceil v]
    · rw [abs_of_nonpos (by linarith [Int.le_ceil v])]
      linarith [Int.ceil_lt_add_one v]

/-- The locale that `loadLocale` returns is the one it is given. -/
theorem loadLocale_locale (go : Runtime) (files : Files) (locale l : String)
    (fields : List Field) (h : loadLocale go files locale = Except.ok (l, fields)) :
    l = locale := by
  unfold loadLocale at h
  cases h1 : readMap files "/opt/questionnaire/questions.json" with
  | error p => simp [h1, bind_error] at h
  | ok questions =>
    cases h2 : assertSlice (index questions locale) with
    | error p => simp [h1, h2, bind_ok, bind_error] at h
    | ok list =>
      cases h3 : getFields go files list locale with
      | error p => simp [h1, h2, h3, bind_ok, bind_error] at h
      | ok fs =>
        simp [h1, h2, h3, bind_ok, pure_eq_ok] at h
        exact h.1.symm

/-- On a path that begins with `/` the handler loads the locale of the rest of the path. -/
theorem loadFields_slash (go : Runtime) (files : Files) (rest : String) :
    loadFields go files ("/" ++ rest) = loadLocale go files (getLocale rest) := by
  simp [loadFields, requestLocale, splitAfterN_slash, sliceIndex, bind_ok, pure_eq_ok]

/-! ## The claims -/

/-- C1: for every string, `getLocale` returns the string itself when it is exactly `en` or `ar`
and `en` in every other case, so that its result is always one of the two supported locales;
the function is total. -/
theorem getLocale_spec (s : String) :
    getLocale s = (if s = "en" ∨ s = "ar" then s else "en") ∧
      (getLocale s = "en" ∨ getLocale s = "ar") := by
  by_cases h1 : s = "en"
  · subst h1; exact ⟨by decide, by decide⟩
  · by_cases h2 : s = "ar"
    · subst h2; exact ⟨by decide, by decide⟩
    · have e1 : ("en" == s) = false := by simpa using fun h => h1 h.symm
      have e2 : ("ar" == s) = false := by simpa using fun h => h2 h.symm
      have : getLocale s = "en" := by
        simp [getLocale, validLocales, List.find?, e1, e2]
      simp [this, h1, h2]

/-- C2: for every question and every locale whose catalog entry holds string `required` and
`maxChars` messages, any chain `defineValidators` builds starts with the Required validator of
the locale's `required` message exactly when the question's `required` flag is true, a MaxLength
validator comes after it, and the chain is one of `[]`, `[Required]`, `[MaxLength]`,
`[Required, MaxLength]`; and a chain is built whenever the flag is a boolean. -/
theorem defineValidators_chain (go : Runtime) (files : Files) (q : List (String × Value))
    (locale required maxChars : String)
    (hcat : CatalogEntry files locale required maxChars) :
    (∀ chain, defineValidators go files q locale = Except.ok chain →
      ((∃ rest, chain = Validator.Required required :: rest) ↔
        index q "required" = Value.bool true) ∧
      (chain = [] ∨ chain = [Validator.Required required] ∨
        (∃ n m, chain = [Validator.MaxLength n m]) ∨
        (∃ n m, chain = [Validator.Required required, Validator.MaxLength n m]))) ∧
    (∀ flag, index q "required" = Value.bool flag →
      ∃ chain, defineValidators go files q locale = Except.ok chain) := by
  refine ⟨fun chain h => ?_, fun flag hflag => ⟨_, defineValidators_eq _ _ _ _ _ _ _ hcat hflag⟩⟩
  obtain ⟨flag, hflag, rfl⟩ := defineValidators_ok_inv _ _ _ _ _ _ _ hcat h
  rw [hflag]
  cases flag <;> cases index q "maxLength" <;> simp [requiredChain, maxLengthChain]

/-- C2, at an instance: the example catalog and a required question with a `maxLength` of 5. -/
theorem defineValidators_chain_witness :
    CatalogEntry exampleFiles "en" "This field is required" "At most %d characters" ∧
      defineValidators exampleGo exampleFiles
          [("required", Value.bool true), ("maxLength", Value.number 5)] "en" =
        Except.ok [Validator.Required "This field is required",
          Validator.MaxLength 5 "At most 5 characters"] ∧
      ∃ chain, defineValidators exampleGo exampleFiles
          [("required", Value.bool true), ("maxLength", Value.number 5)] "en" =
        Except.ok chain :=
  ⟨exampleFiles_catalog, rfl,
    (defineValidators_chain exampleGo exampleFiles [("required", Value.bool true),
      ("maxLength", Value.number 5)] "en" _ _ exampleFiles_catalog).2 true rfl⟩

/-- C3, as stated, fails: a `maxLength` of -1 is not a non-negative integer, and
`defineValidators` appends a MaxLength validator for it all the same, with the limit -1. -/
theorem maxLength_negative_counterexample :
    (¬ ∃ N : ℕ, (-1 : ℚ) = N) ∧
      defineValidators exampleGo exampleFiles
          [("required", Value.bool false), ("maxLength", Value.number (-1))] "en" =
        Except.ok [Validator.MaxLength (-1) "At most -1 characters"] := by
  refine ⟨?_, rfl⟩
  rintro ⟨N, hN⟩
  have h0 : (0 : ℚ) ≤ (N : ℚ) := Nat.cast_nonneg N
  rw [← hN] at h0
  norm_num at h0

/-- C3, amended: for every question with a boolean `required` flag, and a locale whose catalog
entry holds string messages, `defineValidators` appends a MaxLength validator exactly when the
question's `maxLength` is a JSON number, of any sign and with or without a fraction. The limit
is `int(v)` of the decoded `float64`: for a number whose whole part fits the 64-bit `int` it is
the number truncated towards zero, an integer no further from zero than the number and less
than one away from it, and so N itself when the number is a non-negative integer N up to
9223372036854775807; beyond that range it is what the Go implementation gives. The message is
the locale's `maxChars` template formatted by `fmt.Sprintf` with the limit. -/
theorem defineValidators_maxLength (go : Runtime) (files : Files) (q : List (String × Value))
    (locale required maxChars : String) (flag : Bool)
    (hcat : CatalogEntry files locale required maxChars)
    (hflag : index q "required" = Value.bool flag) :
    (∀ v : ℚ, index q "maxLength" = Value.number v →
      defineValidators go files q locale =
        Except.ok (requiredChain flag required ++
          [Validator.MaxLength (floatToInt go v)
            (Sprintf go maxChars [FmtArg.int (floatToInt go v)])]) ∧
      (-9223372036854775809 < v → v < 9223372036854775808 →
        |(floatToInt go v : ℚ)| ≤ |v| ∧ |v - floatToInt go v| < 1) ∧
      ∀ N : ℕ, v = N → N ≤ 9223372036854775807 → floatToInt go v = N) ∧
    ((∀ v : ℚ, index q "maxLength" ≠ Value.number v) →
      defineValidators go files q locale = Except.ok (requiredChain flag required) ∧
      ∀ n m, Validator.MaxLength n m ∉ requiredChain flag required) := by
  have key := defineValidators_eq go files q locale required maxChars flag hcat hflag
  refine ⟨fun v hv => ⟨?_, ?_, ?_⟩, fun hno => ⟨?_, ?_⟩⟩
  · rw [key, hv]; rfl
  · intro h1 h2
    rw [floatToInt_inRange go v h1 h2]
    exact truncate_bounds v
  · rintro N rfl hN
    have h1 : (-9223372036854775809 : ℚ) < (N : ℚ) :=
      lt_of_lt_of_le (by norm_num) (Nat.cast_nonneg N)
    have h2 : (N : ℚ) < 9223372036854775808 := by
      have : N < 9223372036854775808 := by omega
      exact_mod_cast this
    rw [floatToInt_inRange go _ h1 h2]
    simp
  · rw [key]
    cases hml : index q "maxLength" with
    | number v => exact absurd hml (hno v)
    | _ => simp [maxLengthChain]
  · intro n m
    cases flag <;> simp [requiredChain]

/-- C3, amended, at an instance: a `maxLength` of 5/2 gives the limit 2. -/
theorem defineValidators_maxLength_witness :
    CatalogEntry exampleFiles "en" "This field is required" "At most %d characters" ∧
      defineValidators exampleGo exampleFiles
          [("required", Value.bool true), ("maxLength", Value.number (mkRat 5 2))] "en" =
        Except.ok (requiredChain true "This field is required" ++
          [Validator.MaxLength (floatToInt exampleGo (mkRat 5 2))
            (Sprintf exampleGo "At most %d characters"
              [FmtArg.int (floatToInt exampleGo (mkRat 5 2))])]) ∧
      floatToInt exampleGo (mkRat 5 2) = 2 ∧
      Sprintf exampleGo "At most %d characters" [FmtArg.int (floatToInt exampleGo (mkRat 5 2))] =
        "At most 2 characters" :=
  ⟨exampleFiles_catalog,
    ((defineValidators_maxLength exampleGo exampleFiles
      [("required", Value.bool true), ("maxLength", Value.number (mkRat 5 2))] "en" _ _ true
      exampleFiles_catalog rfl).1 (mkRat 5 2) rfl).1, by decide, by decide⟩

/-- C4, as stated, fails: without the message catalog `getFields` panics on a well-typed list
of one text box, and returns no field. -/
theorem getFields_no_catalog_counterexample :
    (∀ question ∈ exampleQuestions.take 1, wellTyped question = true) ∧
      getFields exampleGo noCatalogFiles (exampleQuestions.take 1) "en" =
        Except.error (Panic.error "ReadFile") :=
  ⟨by decide, rfl⟩

/-- C4, amended: for every well-typed question list, read with a message catalog whose entry
for the locale holds string `required` and `maxChars` messages, `getFields` returns exactly one
field for each question whose type is `textBoxQuestion`, `numberQuestion`,
`multipleChoiceQuestion` or `singleChoiceQuestion` (a text field, an integer field, a
multi-valued field with a checkbox widget and a single-valued field with a radio widget
respectively, each carrying the text of its question), in the order of the questions, and no
field for a question of any other type; the number of fields is the number of questions of a
known type. -/
theorem getFields_wellTyped (go : Runtime) (files : Files) (questions : List Value)
    (locale required maxChars : String)
    (hcat : CatalogEntry files locale required maxChars)
    (hwt : ∀ question ∈ questions, wellTyped question = true) :
    ∃ fields, getFields go files questions locale = Except.ok fields ∧
      fields.map Field.shape = questions.filterMap (fun question =>
        fieldFor (questionType question)) ∧
      fields.map Field.name =
        (questions.filter fun question => knownType (questionType question)).map questionText ∧
      fields.length =
        (questions.filter fun question => knownType (questionType question)).length := by
  induction questions with
  | nil => exact ⟨[], rfl, rfl, rfl, rfl⟩
  | cons question rest ih =>
    obtain ⟨fields, hfields, hshape, hname, hlen⟩ :=
      ih (fun x hx => hwt x (List.mem_cons_of_mem _ hx))
    obtain ⟨r, hr, hrshape, hrname⟩ :=
      buildField_wellTyped go files question locale required maxChars hcat
        (hwt question (List.mem_cons_self _ _))
    have hsome := fieldFor_isSome (questionType question)
    refine ⟨r.toList ++ fields, ?_, ?_, ?_, ?_⟩
    · simp [getFields, hr, hfields, bind_ok, pure_eq_ok]
    · cases r with
      | none =>
        simp only [Option.map_none'] at hrshape
        simp [List.filterMap_cons, ← hrshape, hshape]
      | some f =>
        simp only [Option.map_some'] at hrshape
        simp [List.filterMap_cons, ← hrshape, hshape]
    · cases r with
      | none =>
        simp only [Option.map_none'] at hrshape
        rw [← hrshape] at hsome
        simp [List.filter_cons, ← hsome, hname]
      | some f =>
        simp only [Option.map_some'] at hrshape hrname
        rw [← hrshape] at hsome hrname
        simp only [Option.map_some', Option.some.injEq] at hrname
        simp [List.filter_cons, ← hsome, hname, hrname]
    · cases r with
      | none =>
        simp only [Option.map_none'] at hrshape
        rw [← hrshape] at hsome
        simp [List.filter_cons, ← hsome, hlen]
      | some f =>
        simp only [Option.map_some'] at hrshape
        rw [← hrshape] at hsome
        simp [List.filter_cons, ← hsome, hlen]

/-- C4, amended, at an instance: of the three example questions the first and the third give a field. -/
theorem getFields_wellTyped_witness :
    CatalogEntry exampleFiles "en" "This field is required" "At most %d characters" ∧
      (∀ question ∈ exampleQuestions, wellTyped question = true) ∧
      ∃ fields, getFields exampleGo exampleFiles exampleQuestions "en" = Except.ok fields ∧
        fields.map Field.shape =
          [(FieldKind.text, none), (FieldKind.text, some WidgetKind.radioSelect)] ∧
        fields.map Field.name = ["Your name", "Colour"] ∧
        fields.length = 2 :=
  ⟨exampleFiles_catalog, by decide,
    getFields_wellTyped exampleGo exampleFiles exampleQuestions "en" _ _ exampleFiles_catalog (by decide)⟩

/-- C5, as stated, fails: the field built for a text box whose `question` is `Your name` and
whose `name` is `name` is keyed `Your name`, not `name`. -/
theorem field_key_counterexample :
    (getFields exampleGo exampleFiles
        [Value.object [("type", Value.string "textBoxQuestion"),
          ("question", Value.string "Your name"), ("name", Value.string "name"),
          ("required", Value.bool true)]] "en").map (List.map Field.name) =
      Except.ok ["Your name"] ∧
    "Your name" ≠ "name" :=
  ⟨rfl, by decide⟩

/-- C5, amended: for every question of a known type (well-typed, read with a catalog entry for
the locale), the field `getFields` builds is keyed by the text of the question's `question`; the
question's `name` only becomes the `class` and `id` attributes of the widget of a choice
question. The `question` text is the key under which submitted request values are bound to the
field and under which its value appears in the cleaned data: a text box submitted with the value
`v` under the text of its `question` yields cleaned data that map that text to `v`. -/
theorem field_keyed_by_question (go : Runtime) (files : Files) (q : List (String × Value))
    (locale required maxChars t s : String) (flag : Bool)
    (hcat : CatalogEntry files locale required maxChars)
    (ht : index q "type" = Value.string t) (hk : knownType t = true)
    (hs : index q "question" = Value.string s)
    (hflag : index q "required" = Value.bool flag)
    (hn : choiceType t = true → (index q "name").isString = true) :
    ∃ f, getFields go files [Value.object q] locale = Except.ok [f] ∧
      f.name = s ∧
      (choiceType t = false → f.widget.isNone = true) ∧
      (∀ wd, f.widget = some wd →
        ∃ n, index q "name" = Value.string n ∧ wd.attrs = [("class", n), ("id", n)]) ∧
      ∀ (r : Request) (v : String), t = "textBoxQuestion" → r.Form.lookup s = some [v] →
        boundValues f r = [v] ∧
        specForms.CleanedData [f] r = Value.object [(s, Value.string v)] := by
  obtain ⟨f, hf, hname, -, hshape, hnone, hwd⟩ :=
    buildField_known go files q locale required maxChars t s flag hcat ht hk hs hflag hn
  refine ⟨f, ?_, hname, hnone, fun wd h => (hwd wd h).2, ?_⟩
  · simp [getFields, hf, bind_ok, pure_eq_ok]
  · intro r v htext hv
    subst htext
    have hkind : f.kind = FieldKind.text := by
      have := congrArg (Option.map Prod.fst) hshape
      simpa [fieldFor, Field.shape] using this
    have hb : boundValues f r = [v] := by simp [boundValues, hname, hv]
    exact ⟨hb, by simp [specForms, cleanedValue, hkind, hb, hname]⟩

/-- C5, amended, at an instance: a required text box whose `question` is `name`, submitted with
`name=Ada`, yields the cleaned data that map `name` to `Ada`. -/
theorem field_keyed_by_question_witness :
    CatalogEntry exampleFiles "en" "This field is required" "At most %d characters" ∧
      ∃ f, getFields exampleGo exampleFiles
          [Value.object [("type", Value.string "textBoxQuestion"),
            ("question", Value.string "name"), ("name", Value.string "n1"),
            ("required", Value.bool true)]] "en" = Except.ok [f] ∧
        f.name = "name" ∧
        specForms.CleanedData [f] ⟨"POST", "/", [("name", ["Ada"])]⟩ =
          Value.object [("name", Value.string "Ada")] := by
  obtain ⟨f, hf, hname, -, -, hclean⟩ :=
    field_keyed_by_question exampleGo exampleFiles
      [("type", Value.string "textBoxQuestion"), ("question", Value.string "name"),
        ("name", Value.string "n1"), ("required", Value.bool true)]
      "en" _ _ "textBoxQuestion" "name" true exampleFiles_catalog rfl rfl rfl rfl (by decide)
  exact ⟨exampleFiles_catalog, f, hf, hname,
    (hclean ⟨"POST", "/", [("name", ["Ada"])]⟩ "Ada" rfl rfl).2⟩

/-- C8, as stated, fails: the first segment of the path `/ar/` is `ar`, a supported locale, and
the handler loads the locale `en` for it and renders the English form, whereas for `/ar` it
renders the Arabic one. -/
theorem handler_locale_counterexample :
    getLocale (firstSegment "/ar/") = "ar" ∧
      (loadFields exampleGo exampleFiles "/ar/").map Prod.fst = Except.ok "en" ∧
      (questionnaireHandler exampleGo exampleFlags specForms exampleWorld
          ⟨"GET", "/ar/", []⟩).view.map View.fieldNames = some ["Your name"] ∧
      (questionnaireHandler exampleGo exampleFlags specForms exampleWorld
          ⟨"GET", "/ar", []⟩).view.map View.fieldNames = some ["Comments"] :=
  ⟨by decide, rfl, by decide, by decide⟩

/-- C8, amended: for every request path that begins with `/`, the locale `questionnaireHandler`
serves is `getLocale` applied to the whole rest of the path after the leading `/`: the handler
loads the questions of that locale and serves the request with it, whatever the method and the
form. So `/ar` is served in `ar`, and `/ar/`, `/ar/x`, `/`, `/xx` and `/xx/ar` in the default
`en`. -/
theorem handler_locale_rest :
    (∀ (go : Runtime) (flags : Flags) (lib : Gforms) (w : World) (method rest : String)
        (form : List (String × List String)),
      questionnaireHandler go flags lib w ⟨method, "/" ++ rest, form⟩ =
        match loadLocale go w.files (getLocale rest) with
        | Except.error p => ⟨w, none, some p⟩
        | Except.ok (locale, fields) =>
          serve go flags lib w ⟨method, "/" ++ rest, form⟩ locale fields) ∧
    (∀ (go : Runtime) (files : Files) (rest : String),
      loadFields go files ("/" ++ rest) = loadLocale go files (getLocale rest)) ∧
    (∀ (go : Runtime) (files : Files) (rest locale : String) (fields : List Field),
      loadFields go files ("/" ++ rest) = Except.ok (locale, fields) →
        locale = getLocale rest) ∧
    (∀ rest : String, requestLocale ("/" ++ rest) = Except.ok (getLocale rest)) ∧
    (loadFields exampleGo exampleFiles "/ar").map Prod.fst = Except.ok "ar" ∧
    (loadFields exampleGo exampleFiles "/ar/").map Prod.fst = Except.ok "en" ∧
    (loadFields exampleGo exampleFiles "/ar/x").map Prod.fst = Except.ok "en" ∧
    (loadFields exampleGo exampleFiles "/").map Prod.fst = Except.ok "en" ∧
    (loadFields exampleGo exampleFiles "/xx").map Prod.fst = Except.ok "en" ∧
    (loadFields exampleGo exampleFiles "/xx/ar").map Prod.fst = Except.ok "en" := by
  refine ⟨fun go flags lib w method rest form => ?_, loadFields_slash,
    fun go files rest locale fields h => ?_, fun rest => ?_, rfl, rfl, rfl, rfl, rfl, rfl⟩
  · simp only [questionnaireHandler, loadFields_slash]
  · rw [loadFields_slash] at h
    exact loadLocale_locale go files _ _ _ h
  · simp [requestLocale, splitAfterN_slash, sliceIndex, bind_ok, pure_eq_ok]

/-- C8, amended, at an instance: the path `/ar/x` of the example world is served in `en`. -/
theorem handler_locale_rest_witness :
    (loadFields exampleGo exampleFiles ("/" ++ "ar/x")).map Prod.fst = Except.ok "en" ∧
      "en" = getLocale "ar/x" := by
  have h : ∃ fields, loadFields exampleGo exampleFiles ("/" ++ "ar/x") =
      Except.ok ("en", fields) := ⟨_, rfl⟩
  obtain ⟨fields, hf⟩ := h
  exact ⟨rfl, handler_locale_rest.2.2.1 exampleGo exampleFiles "ar/x" "en" fields hf⟩

/-- C10, as stated, fails: a text box whose `maxLength` is the string `5` does not make `getFields`
fail; the value is skipped and a field without a MaxLength validator is returned. -/
theorem malformed_maxLength_counterexample :
    (getFields exampleGo exampleFiles
        [Value.object [("type", Value.string "textBoxQuestion"), ("question", Value.string "Q"),
          ("name", Value.string "n"), ("required", Value.bool false),
          ("maxLength", Value.string "5")]] "en").map
        (List.map fun f => (f.name, f.validators)) =
      Except.ok [("Q", [])] :=
  rfl

/-- C10, amended: for every question of a known type in which `question` is not a string, or
`required` is not a boolean, or (in a choice question) `name` is not a string, `getFields` fails
fatally on every question list that holds the question. The other malformed values do not stop
it: with a catalog entry for the locale and the three values above well-typed, `getFields`
returns a field for the question whatever its `maxLength` and `choices` are (and whatever the
`name` of a text or number question is); a `maxLength` that is not a number is skipped, the
field has no MaxLength validator; a `choices` that is not an array makes the widget's option
maker fail when it is called, not the building of the field. -/
theorem getFields_malformed (go : Runtime) (files : Files) (q : List (String × Value))
    (locale required maxChars t : String)
    (ht : index q "type" = Value.string t) (hk : knownType t = true) :
    ((index q "question").isString = false ∨ (index q "required").isBool = false ∨
        (choiceType t = true ∧ (index q "name").isString = false) →
      ∀ questions : List Value, Value.object q ∈ questions →
        ∃ p, getFields go files questions locale = Except.error p) ∧
    (CatalogEntry files locale required maxChars → wellTyped (Value.object q) = true →
      ∃ f, getFields go files [Value.object q] locale = Except.ok [f] ∧
        ((∀ v : ℚ, index q "maxLength" ≠ Value.number v) →
          ∀ n m, Validator.MaxLength n m ∉ f.validators) ∧
        ((∀ xs, index q "choices" ≠ Value.array xs) →
          ∀ wd, f.widget = some wd → wd.options = Except.error Panic.typeAssertion)) := by
  refine ⟨fun h questions hmem =>
    getFields_error_of_mem go files locale _ (buildField_error go files q locale t ht hk h)
      questions hmem, fun hcat hwt => ?_⟩
  simp only [wellTyped, ht, hk, Bool.not_true, Bool.false_or, Bool.and_eq_true] at hwt
  obtain ⟨⟨hq, hr⟩, hn⟩ := hwt
  cases hs : index q "question" with
  | string s =>
    cases hflag : index q "required" with
    | bool flag =>
      obtain ⟨f, hf, -, hval, -, -, hwd⟩ :=
        buildField_known go files q locale required maxChars t s flag hcat ht hk hs hflag
          (fun hc => by simpa [hc] using hn)
      refine ⟨f, by simp [getFields, hf, bind_ok, pure_eq_ok], fun hno n m => ?_,
        fun hno wd h => ?_⟩
      · rw [hval]
        cases hml : index q "maxLength" with
        | number v => exact absurd hml (hno v)
        | _ => cases flag <;> simp [requiredChain, maxLengthChain]
      · rw [(hwd wd h).1]
        cases hch : index q "choices" with
        | array xs => exact absurd hch (hno xs)
        | _ => simp [choiceOptions, hch, assertSlice, bind_error]
    | _ => simp [hflag, Value.isBool] at hr
  | _ => simp [hs, Value.isString] at hq

/-- C10, amended, at an instance: a single choice question whose `required` is the string `yes`
makes `getFields` fail, and one whose `choices` is the number 3 gives a field. -/
theorem getFields_malformed_witness :
    (∃ p, getFields exampleGo exampleFiles
        [Value.object [("type", Value.string "singleChoiceQuestion"),
          ("question", Value.string "Colour"), ("name", Value.string "colour"),
          ("required", Value.string "yes")]] "en" = Except.error p) ∧
      ∃ f, getFields exampleGo exampleFiles
          [Value.object [("type", Value.string "singleChoiceQuestion"),
            ("question", Value.string "Colour"), ("name", Value.string "colour"),
            ("required", Value.bool false), ("choices", Value.number 3)]] "en" =
          Except.ok [f] ∧
        ∀ wd, f.widget = some wd → wd.options = Except.error Panic.typeAssertion := by
  refine ⟨(getFields_malformed exampleGo exampleFiles
      [("type", Value.string "singleChoiceQuestion"), ("question", Value.string "Colour"),
        ("name", Value.string "colour"), ("required", Value.string "yes")]
      "en" "" "" "singleChoiceQuestion" rfl (by decide)).1 (Or.inr (Or.inl rfl)) _
      (List.mem_singleton.mpr rfl), ?_⟩
  obtain ⟨f, hf, -, hch⟩ := (getFields_malformed exampleGo exampleFiles
      [("type", Value.string "singleChoiceQuestion"), ("question", Value.string "Colour"),
        ("name", Value.string "colour"), ("required", Value.bool false),
        ("choices", Value.number 3)]
      "en" _ _ "singleChoiceQuestion" rfl (by decide)).2 exampleFiles_catalog rfl
  exact ⟨f, hf, hch (fun xs h => by cases h)⟩

/-- C6, as stated, fails: a PUT request whose form validates (the only field of the Arabic
example form is optional) makes the handler write a record. -/
theorem put_writes_record_counterexample :
    "PUT" ≠ "POST" ∧
      (questionnaireHandler exampleGo exampleFlags specForms exampleWorld
          ⟨"PUT", "/ar", []⟩).world.records.map Prod.fst =
        ["questionnaire-answers/2024-03-09T14:05:07.json"] :=
  ⟨by decide, by decide⟩

/-- C6, amended: the handler writes an answer record only if the request method is not GET and
the form validates, a POST being one such method among others; a GET request writes no record,
a request whose form does not validate writes no record, and both render the form view (when
its template and messages load). -/
theorem questionnaireHandler_records (go : Runtime) (flags : Flags) (lib : Gforms)
    (w : World) (r : Request) :
    ((questionnaireHandler go flags lib w r).world.records = w.records ∨
      (r.Method ≠ "GET" ∧ ∃ locale fields,
        loadFields go w.files r.Path = Except.ok (locale, fields) ∧ lib.IsValid fields r = true ∧
        (questionnaireHandler go flags lib w r).world.records =
          (recordPath go flags w, lib.CleanedData fields r) :: w.records)) ∧
    (r.Method = "GET" → (questionnaireHandler go flags lib w r).world.records = w.records) ∧
    (∀ locale fields, loadFields go w.files r.Path = Except.ok (locale, fields) →
      r.Method = "GET" ∨ lib.IsValid fields r = false →
      (questionnaireHandler go flags lib w r).world.records = w.records ∧
      ∀ view, renderForm w.files flags locale (fields, r) = Except.ok view →
        (∃ ctx, view = View.form ctx) ∧
        (questionnaireHandler go flags lib w r).view = some view ∧
        (questionnaireHandler go flags lib w r).panic = none) := by
  have hform : ∀ locale fields, loadFields go w.files r.Path = Except.ok (locale, fields) →
      r.Method = "GET" ∨ lib.IsValid fields r = false →
      (questionnaireHandler go flags lib w r).world.records = w.records ∧
      ∀ view, renderForm w.files flags locale (fields, r) = Except.ok view →
        (∃ ctx, view = View.form ctx) ∧
        (questionnaireHandler go flags lib w r).view = some view ∧
        (questionnaireHandler go flags lib w r).panic = none := by
    intro locale fields hload hcond
    have hc : (r.Method == "GET" || !lib.IsValid fields r) = true := by
      rcases hcond with h | h <;> simp [h]
    unfold questionnaireHandler serve
    simp only [hload, hc, if_true]
    cases hrender : renderForm w.files flags locale (fields, r) with
    | error p => exact ⟨rfl, fun view hv => by cases hv⟩
    | ok view =>
      refine ⟨rfl, fun view2 hv => ?_⟩
      cases hv
      exact ⟨renderForm_form _ _ _ _ _ hrender, rfl, rfl⟩
  refine ⟨?_, ?_, hform⟩
  · cases hload : loadFields go w.files r.Path with
    | error p => left; simp [questionnaireHandler, hload]
    | ok lf =>
      obtain ⟨locale, fields⟩ := lf
      by_cases hget : r.Method = "GET"
      · exact Or.inl (hform locale fields hload (Or.inl hget)).1
      · cases hvalid : lib.IsValid fields r with
        | false => exact Or.inl (hform locale fields hload (Or.inr hvalid)).1
        | true =>
          have hc : (r.Method == "GET" || !lib.IsValid fields r) = false := by
            simp [hget, hvalid]
          by_cases hcreate : w.creatable (recordPath go flags w) = true
          · right
            refine ⟨hget, locale, fields, rfl, hvalid, ?_⟩
            unfold questionnaireHandler serve
            simp only [hload, hc, hcreate, if_true]
            cases renderThankYou go w.files locale <;> simp
          · left
            unfold questionnaireHandler serve
            simp [hload, hc, hcreate]
  · intro hget
    cases hload : loadFields go w.files r.Path with
    | error p => simp [questionnaireHandler, hload]
    | ok lf =>
      obtain ⟨locale, fields⟩ := lf
      exact (hform locale fields hload (Or.inl hget)).1

/-- C6, amended, at an instance: a GET request to the example world writes no record and renders
the English form. -/
theorem questionnaireHandler_records_witness :
    (questionnaireHandler exampleGo exampleFlags specForms exampleWorld ⟨"GET", "/", []⟩).world.records =
        [] ∧
      (∃ ctx, (questionnaireHandler exampleGo exampleFlags specForms exampleWorld ⟨"GET", "/", []⟩).view =
        some (View.form ctx)) ∧
      (questionnaireHandler exampleGo exampleFlags specForms exampleWorld ⟨"GET", "/", []⟩).panic =
        none := by
  obtain ⟨hrec, hview⟩ :=
    (questionnaireHandler_records exampleGo exampleFlags specForms exampleWorld ⟨"GET", "/", []⟩).2.2
      "en" _ rfl (Or.inl rfl)
  obtain ⟨⟨ctx, hctx⟩, hv, hp⟩ := hview _ rfl
  exact ⟨hrec, ⟨ctx, by rw [hv, hctx]⟩, hp⟩

/-- C7: the code fails the claim. On a valid POST, with the four resource files in
`/opt/questionnaire` and a writable answers directory, the handler writes the record and then
panics: it parses the thank-you template from `/op/questionnaire/thankYou.html`. With the
template put at that path the thank-you view is rendered. -/
theorem thankYou_template_path_panics :
    (questionnaireHandler exampleGo exampleFlags specForms exampleWorld examplePost).world.records =
        [("questionnaire-answers/2024-03-09T14:05:07.json",
          Value.object [("Your name", Value.string "Ada")])] ∧
      (questionnaireHandler exampleGo exampleFlags specForms exampleWorld examplePost).view.isNone = true ∧
      (questionnaireHandler exampleGo exampleFlags specForms exampleWorld examplePost).panic =
        some (Panic.error "ParseFiles") ∧
      (questionnaireHandler exampleGo exampleFlags specForms
          { exampleWorld with
            files := ("/op/questionnaire/thankYou.html", ⟨none, true⟩) :: exampleFiles }
          examplePost).panic = none :=
  ⟨rfl, rfl, rfl, rfl⟩

/-- C9: the code fails the claim. The six parts of the file name come from six readings of the
clock: when the year turns between the first reading and the second, the record of a submission
made at 2024-12-31 23:59:59 is written to `2024-01-01T00:00:00.json`, which is the formatted
instant of none of the readings. -/
theorem timeString_torn_at_new_year :
    recordPath exampleGo exampleFlags newYearWorld = "questionnaire-answers/2024-01-01T00:00:00.json" ∧
      (questionnaireHandler exampleGo exampleFlags specForms newYearWorld examplePost).world.records.map
          Prod.fst = ["questionnaire-answers/2024-01-01T00:00:00.json"] ∧
      isoSecond (newYearWorld.clock 0) = "2024-12-31T23:59:59" ∧
      isoSecond (newYearWorld.clock 1) = "2025-01-01T00:00:00" ∧
      ∀ k < 6, recordPath exampleGo exampleFlags newYearWorld ≠
        exampleFlags.answersDirectory ++ "/" ++ isoSecond (newYearWorld.clock k) ++ ".json" :=
  ⟨by decide, by decide, by decide, by decide, by decide⟩

end Questionnaire
